import Mathlib

/-!
Verification development for the showroom-tool repository.

Python strings are modelled as lists of characters (`PyStr`), and each
Python function of the core pipeline is translated to an executable Lean
definition over that representation:

* `generate_cache_key` — cache-key derivation (URL normalisation + SHA-256),
  from src/showroom_tool/showroom.py.
* `get_or_clone_repository` — the acquisition state machine, with the
  external git operation outcomes abstracted into an environment record and
  the performed side effects recorded as an action trace.
* `extract_module_name_from_content`, `parse_navigation_file`,
  `extract_lab_info_from_site_yaml`, `read_module_content`,
  `fetch_showroom_repository` — the document-extraction pipeline, with the
  repository working copy abstracted as a record of file contents.
* `extract_field_descriptions`, `build_enhanced_system_prompt` — prompt
  assembly from src/showroom_tool/shared_utilities.py.
* `process_content_with_structured_output` — the structured LLM invocation
  protocol, with the provider call outcome abstracted as an input.
-/

/-- Python strings are modelled as lists of characters. -/
abbrev PyStr := List Char

namespace PyStrOps

/-- ASCII whitespace recognised by Python `str.strip()`. -/
def isPySpace (c : Char) : Bool :=
  c = ' ' || c = '\t' || c = '\n' || c = '\x0d' || c = '\x0b' || c = '\x0c'

/-- Python `str.strip()`: remove leading and trailing whitespace. -/
def pyStrip (s : PyStr) : PyStr :=
  ((s.dropWhile isPySpace).reverse.dropWhile isPySpace).reverse

/-- Python `str.lower()` (ASCII range; the inputs of interest are ASCII). -/
def pyLower (s : PyStr) : PyStr := s.map Char.toLower

/-- Python `str.upper()` (ASCII range; the inputs of interest are ASCII). -/
def pyUpper (s : PyStr) : PyStr := s.map Char.toUpper

/-- Python `str.split(sep)` for a one-character separator. -/
def splitOnChar (c : Char) : PyStr → List PyStr
  | [] => [[]]
  | x :: xs =>
    match splitOnChar c xs with
    | [] => [[]]
    | h :: t => if x = c then [] :: h :: t else (x :: h) :: t

/-- Python `str.startswith(pat)`. -/
def pyStarts (pat s : PyStr) : Bool :=
  match pat, s with
  | [], _ => true
  | _ :: _, [] => false
  | a :: as, b :: bs => if a = b then pyStarts as bs else false

/-- Python `str.endswith(pat)`. -/
def pyEnds (pat s : PyStr) : Bool :=
  pyStarts pat.reverse s.reverse

/-- Python `sep.join(parts)`. -/
def joinWith (sep : PyStr) : List PyStr → PyStr
  | [] => []
  | [x] => x
  | x :: y :: rest => x ++ sep ++ joinWith sep (y :: rest)

/-- Decidable contiguous-substring test: `hasSub pat s` is true when `pat`
occurs contiguously inside `s`. -/
def hasSub (pat : PyStr) : PyStr → Bool
  | [] => pyStarts pat []
  | c :: rest => pyStarts pat (c :: rest) || hasSub pat rest

theorem pyStarts_self_append (a v : PyStr) : pyStarts a (a ++ v) = true := by
  induction a with
  | nil => rfl
  | cons c cs ih => simp [pyStarts, ih]

theorem hasSub_of_starts {pat s : PyStr} (h : pyStarts pat s = true) :
    hasSub pat s = true := by
  cases s with
  | nil => simpa [hasSub] using h
  | cons c rest => simp [hasSub, h]

theorem hasSub_append_left {pat s : PyStr} (u : PyStr)
    (h : hasSub pat s = true) : hasSub pat (u ++ s) = true := by
  induction u with
  | nil => simpa using h
  | cons c cs ih =>
    cases s with
    | nil => simp only [List.append_nil] at *; simp [hasSub, ih]
    | cons d ds => simp [hasSub, ih]

theorem hasSub_sandwich (pat u v : PyStr) :
    hasSub pat (u ++ pat ++ v) = true := by
  have h1 : hasSub pat (pat ++ v) = true :=
    hasSub_of_starts (pyStarts_self_append pat v)
  simpa [List.append_assoc] using hasSub_append_left u h1

theorem hasSub_of_eq_sandwich {pat s : PyStr} (u v : PyStr)
    (h : s = u ++ pat ++ v) : hasSub pat s = true := by
  subst h; exact hasSub_sandwich pat u v

/-- Membership in a list gives a sandwich decomposition of its join. -/
theorem joinWith_mem_decomp (sep : PyStr) {x : PyStr} :
    ∀ {xs : List PyStr}, x ∈ xs → ∃ u v, joinWith sep xs = u ++ x ++ v := by
  intro xs
  induction xs with
  | nil => intro h; cases h
  | cons y ys ih =>
    intro h
    cases ys with
    | nil =>
      rcases List.mem_singleton.mp h with rfl
      exact ⟨[], [], by simp [joinWith]⟩
    | cons z zs =>
      rcases List.mem_cons.mp h with rfl | hmem
      · exact ⟨[], sep ++ joinWith sep (z :: zs), by simp [joinWith]⟩
      · rcases ih hmem with ⟨u, v, hu⟩
        exact ⟨y ++ sep ++ u, v, by simp [joinWith, hu]⟩

end PyStrOps

open PyStrOps

namespace Sha256

/-- UTF-8 encoding of one character (Python `str.encode()`), as byte values. -/
def utf8Bytes (c : Char) : List Nat :=
  let n := c.toNat
  if n < 0x80 then [n]
  else if n < 0x800 then
    [0xC0 ||| (n >>> 6), 0x80 ||| (n &&& 0x3F)]
  else if n < 0x10000 then
    [0xE0 ||| (n >>> 12), 0x80 ||| ((n >>> 6) &&& 0x3F), 0x80 ||| (n &&& 0x3F)]
  else
    [0xF0 ||| (n >>> 18), 0x80 ||| ((n >>> 12) &&& 0x3F),
     0x80 ||| ((n >>> 6) &&& 0x3F), 0x80 ||| (n &&& 0x3F)]

/-- UTF-8 encoding of a string, as byte values. -/
def utf8Encode (s : PyStr) : List Nat := (s.map utf8Bytes).flatten

/-- Truncation to a 32-bit word. -/
def w32 (n : Nat) : Nat := n % 4294967296

/-- Right rotation of a 32-bit word. -/
def rotr (k x : Nat) : Nat := w32 ((x >>> k) ||| (x <<< (32 - k)))

def bsig0 (x : Nat) : Nat := (rotr 2 x) ^^^ (rotr 13 x) ^^^ (rotr 22 x)

def bsig1 (x : Nat) : Nat := (rotr 6 x) ^^^ (rotr 11 x) ^^^ (rotr 25 x)

def ssig0 (x : Nat) : Nat := (rotr 7 x) ^^^ (rotr 18 x) ^^^ (w32 x >>> 3)

def ssig1 (x : Nat) : Nat := (rotr 17 x) ^^^ (rotr 19 x) ^^^ (w32 x >>> 10)

def chF (x y z : Nat) : Nat := (x &&& y) ^^^ ((x ^^^ 0xFFFFFFFF) &&& z)

def majF (x y z : Nat) : Nat := (x &&& y) ^^^ (x &&& z) ^^^ (y &&& z)

/-- Round constants of FIPS 180-4, in decimal. -/
def K : List Nat :=
  [1116352408, 1899447441, 3049323471, 3921009573, 961987163, 1508970993,
   2453635748, 2870763221, 3624381080, 310598401, 607225278, 1426881987,
   1925078388, 2162078206, 2614888103, 3248222580, 3835390401, 4022224774,
   264347078, 604807628, 770255983, 1249150122, 1555081692, 1996064986,
   2554220882, 2821834349, 2952996808, 3210313671, 3336571891, 3584528711,
   113926993, 338241895, 666307205, 773529912, 1294757372, 1396182291,
   1695183700, 1986661051, 2177026350, 2456956037, 2730485921, 2820302411,
   3259730800, 3345764771, 3516065817, 3600352804, 4094571909, 275423344,
   430227734, 506948616, 659060556, 883997877, 958139571, 1322822218,
   1537002063, 1747873779, 1955562222, 2024104815, 2227730452, 2361852424,
   2428436474, 2756734187, 3204031479, 3329325298]

/-- Initial hash state of FIPS 180-4, in decimal. -/
def initH : List Nat :=
  [1779033703, 3144134277, 1013904242, 2773480762, 1359893119, 2600822924,
   528734635, 1541459225]

/-- Big-endian 8-byte encoding. -/
def be64 (n : Nat) : List Nat :=
  [(n >>> 56) % 256, (n >>> 48) % 256, (n >>> 40) % 256, (n >>> 32) % 256,
   (n >>> 24) % 256, (n >>> 16) % 256, (n >>> 8) % 256, n % 256]

/-- Standard SHA-256 padding: 0x80, zeros, 64-bit big-endian bit length. -/
def padMessage (msg : List Nat) : List Nat :=
  let padZeros := (119 - (msg.length % 64)) % 64
  msg ++ [0x80] ++ List.replicate padZeros 0 ++ be64 (msg.length * 8)

/-- Group bytes into big-endian 32-bit words. -/
def toWords : List Nat → List Nat
  | b0 :: b1 :: b2 :: b3 :: rest =>
    (((b0 * 256 + b1) * 256 + b2) * 256 + b3) :: toWords rest
  | _ => []

/-- Split a word list into blocks of 16 words (fuel-driven for structural
recursion; the fuel is the list length). -/
def chunk16 : Nat → List Nat → List (List Nat)
  | 0, _ => []
  | _ + 1, [] => []
  | fuel + 1, w :: ws => (w :: ws).take 16 :: chunk16 fuel ((w :: ws).drop 16)

/-- Extend the 16-word block to the 64-entry message schedule. -/
def extendSchedule (ws : List Nat) : Nat → List Nat
  | 0 => ws
  | fuel + 1 =>
    let n := ws.length
    let next := w32 (ssig1 (ws.getD (n - 2) 0) + ws.getD (n - 7) 0 +
      ssig0 (ws.getD (n - 15) 0) + ws.getD (n - 16) 0)
    extendSchedule (ws ++ [next]) fuel

/-- One compression round. -/
def roundStep (k w : Nat) (st : List Nat) : List Nat :=
  let a := st.getD 0 0
  let b := st.getD 1 0
  let c := st.getD 2 0
  let d := st.getD 3 0
  let e := st.getD 4 0
  let f := st.getD 5 0
  let g := st.getD 6 0
  let h := st.getD 7 0
  let t1 := w32 (h + bsig1 e + chF e f g + k + w)
  let t2 := w32 (bsig0 a + majF a b c)
  [w32 (t1 + t2), a, b, c, w32 (d + t1), e, f, g]

def roundsGo : List (Nat × Nat) → List Nat → List Nat
  | [], st => st
  | (k, w) :: rest, st => roundsGo rest (roundStep k w st)

/-- Process one 16-word block. -/
def processBlock (h : List Nat) (block : List Nat) : List Nat :=
  let ws := extendSchedule block 48
  let st := roundsGo (K.zip ws) h
  (h.zip st).map fun p => w32 (p.1 + p.2)

/-- SHA-256 digest of a byte list, as eight 32-bit words. -/
def sha256Words (msg : List Nat) : List Nat :=
  let padded := padMessage msg
  let words := toWords padded
  (chunk16 words.length words).foldl processBlock initH

def hexChar (n : Nat) : Char :=
  "0123456789abcdef".data.getD n 'x'

/-- Hexadecimal rendering of one 32-bit word (eight nibbles). -/
def wordHex (n : Nat) : PyStr :=
  [28, 24, 20, 16, 12, 8, 4, 0].map fun s => hexChar ((n >>> s) &&& 15)

/-- Python `hashlib.sha256(bytes).hexdigest()`. -/
def sha256Hex (msg : List Nat) : PyStr :=
  ((sha256Words msg).map wordHex).flatten

end Sha256

open Sha256

/-- Translation of `generate_cache_key` (showroom.py): lowercase the URL,
strip a trailing ".git", hash `normalized#ref` with SHA-256 and keep the
first 16 hex characters. -/
def generate_cache_key (git_url git_ref : PyStr) : PyStr :=
  let normalized0 := pyLower git_url
  let normalized :=
    if pyEnds ".git".data normalized0 then
      normalized0.take (normalized0.length - 4)
    else normalized0
  let content := normalized ++ "#".data ++ git_ref
  (sha256Hex (utf8Encode content)).take 16

/-! ## Repository acquisition (`get_or_clone_repository`, showroom.py)

The git layer is external: its outcomes are abstracted into an environment
record, and the side effects the function performs are recorded as an
ordered action trace. -/

/-- Repository locations that `get_or_clone_repository` can return. -/
inductive RPath
  /-- The per-key directory under the cache root. -/
  | cachePath
  /-- A fresh temporary directory (no-cache mode). -/
  | tempPath
deriving DecidableEq, Repr

/-- Observable side effects of the acquisition routine. -/
inductive GitAction
  /-- Call to `update_cached_repo` (fetch + checkout of the cached copy). -/
  | updateAttempt
  /-- Call to `shutil.rmtree` on the cache directory. -/
  | removeCacheDir
  /-- Call to `git.Repo.clone_from` targeting the given path. -/
  | cloneAttempt (p : RPath)
  /-- Call to `repo.git.checkout` after a fresh clone. -/
  | checkoutAttempt
deriving DecidableEq, Repr

/-- Outcomes of the external git operations, fixed per invocation. -/
structure AcqEnv where
  /-- The `no_cache` flag. -/
  noCache : Bool
  /-- The requested git reference. -/
  gitRef : PyStr
  /-- Whether `repo_path.exists()` and `(repo_path / ".git").exists()`. -/
  cacheExists : Bool
  /-- Result of `is_cached_repo_current`. -/
  cacheCurrent : Bool
  /-- Result of `update_cached_repo`. -/
  updateOk : Bool
  /-- Whether `git.Repo.clone_from` succeeds. -/
  cloneOk : Bool
  /-- Whether the post-clone `checkout` succeeds. -/
  checkoutOk : Bool

/-- The shared clone-then-optionally-checkout tail of both the no-cache and
the cache branch of `get_or_clone_repository`. -/
def cloneFresh (env : AcqEnv) (p : RPath) : Option RPath × List GitAction :=
  if env.cloneOk then
    if env.gitRef ≠ "main".data then
      if env.checkoutOk then (some p, [.cloneAttempt p, .checkoutAttempt])
      else (none, [.cloneAttempt p, .checkoutAttempt])
    else (some p, [.cloneAttempt p])
  else (none, [.cloneAttempt p])

/-- Translation of `get_or_clone_repository` (showroom.py): reuse a current
cache entry, otherwise try an incremental update, otherwise remove the cache
directory and re-clone into the same path; no-cache mode clones into a
temporary directory. -/
def get_or_clone_repository (env : AcqEnv) : Option RPath × List GitAction :=
  if env.noCache then cloneFresh env .tempPath
  else if env.cacheExists then
    if env.cacheCurrent then (some .cachePath, [])
    else if env.updateOk then (some .cachePath, [.updateAttempt])
    else
      let r := cloneFresh env .cachePath
      (r.1, .updateAttempt :: .removeCacheDir :: r.2)
  else cloneFresh env .cachePath

/-! ## Document extraction pipeline (showroom.py)

The repository working copy is abstracted as a record of the file contents
the pipeline reads; YAML parsing of `default-site.yml` (done by the external
`yaml` library) is abstracted as its outcome. -/

/-- Result of `yaml.safe_load` on `default-site.yml`, reduced to the two
values the code reads: `site.title` and `site.start_page`, each defaulting
to the empty string when absent. -/
structure SiteData where
  /-- Value of `site.title` (empty when the key is absent). -/
  title : PyStr
  /-- Value of `site.start_page` (empty when the key is absent). -/
  start_page : PyStr
deriving DecidableEq, Repr

/-- State of the `default-site.yml` file in the working copy. -/
inductive SiteYaml
  /-- The file does not exist. -/
  | missing
  /-- The file exists but `yaml.safe_load` raises. -/
  | parseError
  /-- The file exists and parses. -/
  | parsed (d : SiteData)
deriving DecidableEq, Repr

/-- Abstract repository working copy as seen by the extraction pipeline. -/
structure RepoFS where
  /-- The site manifest `default-site.yml`. -/
  siteYaml : SiteYaml
  /-- Contents of `content/modules/ROOT/nav.adoc`, when the file exists. -/
  navFile : Option PyStr
  /-- Contents of `content/modules/ROOT/pages/<filename>`; `none` models a
  file that is absent or unreadable. -/
  pages : PyStr → Option PyStr

/-- Translation of `extract_lab_info_from_site_yaml` (showroom.py): raises
(modelled as `Except.error`) on a missing manifest or missing required
fields, otherwise returns `(lab_name, start_page)`. -/
def extract_lab_info_from_site_yaml (site : SiteYaml) :
    Except PyStr (PyStr × PyStr) :=
  match site with
  | .missing => .error "Site configuration not found".data
  | .parseError => .error "YAML error".data
  | .parsed d =>
    if d.title = [] then
      .error "Lab name (site.title) not found in default-site.yml".data
    else if d.start_page = [] then
      .error "Start page (site.start_page) not found in default-site.yml".data
    else .ok (d.title, d.start_page)

/-! ### Navigation parsing -/

/-- Whether a character is one of the regex-excluded brackets `[` or `]`. -/
def isBracket (c : Char) : Bool := c = '[' || c = ']'

/-- Greedy split for the regex tail `([^\x5b\x5d]+)\.adoc`: the largest
`k ≥ 1` such that the first `k` characters are bracket-free and are
immediately followed by ".adoc". Candidates are tried longest-first,
mirroring greedy backtracking. -/
def adocSplitAt (rest : PyStr) : Nat → Option Nat
  | 0 => none
  | k + 1 =>
    if pyStarts ".adoc".data (rest.drop (k + 1)) then some (k + 1)
    else adocSplitAt rest k

/-- Attempt the regex tail right after a "* xref:" occurrence; returns the
captured group plus the literal ".adoc" (the code rebuilds the filename as
`f"{match.group(1)}.adoc"`). -/
def matchXrefAt (rest : PyStr) : Option PyStr :=
  let run := rest.takeWhile fun c => !isBracket c
  match adocSplitAt rest run.length with
  | some k => some (rest.take k ++ ".adoc".data)
  | none => none

/-- Translation of `re.search(r"\* xref:([^\x5b\x5d]+)\.adoc", line)`: scan
for the leftmost position where the literal "* xref:" matches and the
greedy tail succeeds. -/
def searchXref : PyStr → Option PyStr
  | [] => none
  | c :: rest =>
    if pyStarts "* xref:".data (c :: rest) then
      match matchXrefAt ((c :: rest).drop 7) with
      | some fname => some fname
      | none => searchXref rest
    else searchXref rest

/-- The navigation-parsing loop: keep files referenced from stripped lines
starting with "* xref:", first occurrence wins. -/
def collectNav (seen : List PyStr) : List PyStr → List PyStr
  | [] => []
  | line :: rest =>
    let l := pyStrip line
    if pyStarts "* xref:".data l then
      match searchXref l with
      | some fname =>
        if fname ∈ seen then collectNav seen rest
        else fname :: collectNav (fname :: seen) rest
      | none => collectNav seen rest
    else collectNav seen rest

/-- The filenames extracted from a navigation file content. -/
def navModuleFiles (nav_content : PyStr) : List PyStr :=
  collectNav [] (splitOnChar '\n' nav_content)

/-- Translation of `parse_navigation_file` (showroom.py): raises (modelled
as `Except.error`) when the navigation file is absent, otherwise returns
the ordered, deduplicated module filenames. -/
def parse_navigation_file (nav : Option PyStr) : Except PyStr (List PyStr) :=
  match nav with
  | none => .error "Navigation file not found".data
  | some content => .ok (navModuleFiles content)

/-! ### Header/title parsing (`extract_module_name_from_content`) -/

/-- Level-1 marker heading test on one raw line: the stripped line starts
with "= " and is longer than 2 characters. -/
def isL1Line (l : PyStr) : Prop :=
  pyStarts "= ".data (pyStrip l) = true ∧ (pyStrip l).length > 2

instance : DecidablePred isL1Line := fun l => by
  unfold isL1Line; infer_instance

/-- Level-2 marker heading test on one raw line: the stripped line starts
with "== " and is longer than 3 characters. -/
def isL2Line (l : PyStr) : Prop :=
  pyStarts "== ".data (pyStrip l) = true ∧ (pyStrip l).length > 3

instance : DecidablePred isL2Line := fun l => by
  unfold isL2Line; infer_instance

/-- First level-1 marker heading of the document; the title is the text
after the marker, stripped. -/
def firstL1Head : List PyStr → Option PyStr
  | [] => none
  | l :: ls =>
    if isL1Line l then some (pyStrip ((pyStrip l).drop 2))
    else firstL1Head ls

/-- First level-2 marker heading of the document. -/
def firstL2Head : List PyStr → Option PyStr
  | [] => none
  | l :: ls =>
    if isL2Line l then some (pyStrip ((pyStrip l).drop 3))
    else firstL2Head ls

/-- First underline-style heading: a non-empty stripped line whose stripped
successor is non-empty and consists entirely of the character `ch`. The
code places no constraint on the relative lengths of the two lines. -/
def firstUnderlineHead (ch : Char) : List PyStr → Option PyStr
  | l1 :: l2 :: rest =>
    let s1 := pyStrip l1
    let s2 := pyStrip l2
    if s1 ≠ [] ∧ s2 ≠ [] ∧ s2.all (· = ch) then some s1
    else firstUnderlineHead ch (l2 :: rest)
  | _ => none

/-- Translation of `extract_module_name_from_content` (showroom.py): level-1
marker headings anywhere in the document, then level-1 underline headings,
then level-2 marker headings, then level-2 underline headings, else "". -/
def extract_module_name_from_content (content : PyStr) : PyStr :=
  let lines := splitOnChar '\n' content
  match firstL1Head lines with
  | some t => t
  | none =>
    match firstUnderlineHead '=' lines with
    | some t => t
    | none =>
      match firstL2Head lines with
      | some t => t
      | none =>
        match firstUnderlineHead '-' lines with
        | some t => t
        | none => []

/-- Translation of `read_module_content` (showroom.py): an absent or
unreadable page file yields `("", "")`; otherwise the extracted module name
and the raw content. -/
def read_module_content (pages : PyStr → Option PyStr) (filename : PyStr) :
    PyStr × PyStr :=
  match pages filename with
  | none => ([], [])
  | some content => (extract_module_name_from_content content, content)

/-- Data model of `ShowroomModule` (config/basemodels.py). -/
structure ShowroomModule where
  /-- Derived module title (may be empty). -/
  module_name : PyStr
  /-- Filename from the navigation file. -/
  filename : PyStr
  /-- Raw module content. -/
  module_content : PyStr
deriving DecidableEq, Repr

/-- Data model of `Showroom` (config/basemodels.py); the optional AI artifact
slots are not populated by the fetch pipeline and are omitted. -/
structure Showroom where
  /-- Site title from the manifest. -/
  lab_name : PyStr
  /-- Repository URL. -/
  git_url : PyStr
  /-- Git reference. -/
  git_ref : PyStr
  /-- Ordered module list. -/
  modules : List ShowroomModule
deriving DecidableEq, Repr

/-- The module-assembly loop of `fetch_showroom_repository`: build one
module per navigation filename whose content was read successfully and is
non-empty, applying the start-page title-inheritance rule. -/
def buildModules (pages : PyStr → Option PyStr) (start_page lab_name : PyStr) :
    List PyStr → List ShowroomModule
  | [] => []
  | f :: fs =>
    let r := read_module_content pages f
    if r.2 ≠ [] then
      let module_name :=
        if r.1 = [] ∧ f = start_page ∧ lab_name ≠ [] then lab_name else r.1
      ⟨module_name, f, r.2⟩ :: buildModules pages start_page lab_name fs
    else buildModules pages start_page lab_name fs

/-- Translation of the extraction phase of `fetch_showroom_repository`
(showroom.py), from a successfully acquired working copy: any exception
raised by manifest or navigation handling is caught by the surrounding
`try`/`except`, which returns `None`. -/
def fetch_showroom_repository (repo : RepoFS) (git_url git_ref : PyStr) :
    Option Showroom :=
  match extract_lab_info_from_site_yaml repo.siteYaml with
  | .error _ => none
  | .ok (lab_name, start_page) =>
    match parse_navigation_file repo.navFile with
    | .error _ => none
    | .ok module_files =>
      some ⟨lab_name, git_url, git_ref,
        buildModules repo.pages start_page lab_name module_files⟩

/-! ## Prompt assembly (shared_utilities.py)

A Pydantic output schema is abstracted as its ordered field list: pairs of
field name and resolved description (empty when the field carries none,
after the `description` / `json_schema_extra` fallback). -/

/-- The fixed exclusion set of `extract_field_descriptions`
(shared_utilities.py): metadata fields skipped before description lookup. -/
def skipFields : List PyStr :=
  ["git_url".data, "git_ref".data, "summary_output".data]

/-- Upper-cased field-name header of one instruction block. -/
def fieldHeader (name : PyStr) : PyStr :=
  pyUpper name ++ " FIELD BEHAVIORAL INSTRUCTIONS:".data

/-- Behavioral-boundary directive of one instruction block, embedding the
description. -/
def fieldDirective (desc : PyStr) : PyStr :=
  "IGNORE everything except this field\x27s specific focus. Your analytical approach for this field: ".data
    ++ desc

/-- One per-field section as appended by the loop. -/
def fieldSection (name desc : PyStr) : PyStr :=
  fieldHeader name ++ "\n".data ++ fieldDirective desc ++ "\n".data

/-- The loop of `extract_field_descriptions`: skip excluded fields, keep a
section for every field with a non-empty description, in declaration
order. -/
def fieldSections : List (PyStr × PyStr) → List PyStr
  | [] => []
  | (name, desc) :: rest =>
    if name ∈ skipFields then fieldSections rest
    else if desc ≠ [] then fieldSection name desc :: fieldSections rest
    else fieldSections rest

/-- Leading text of the field-instruction block. -/
def efdPreamble : PyStr :=
  "\nFIELD-SPECIFIC BEHAVIORAL INSTRUCTIONS:\nEach field below requires a COMPLETELY DIFFERENT analytical approach. Do not mix behaviors between fields.\n\n".data

/-- Trailing text of the field-instruction block. -/
def efdEpilogue : PyStr :=
  "\n\nCRITICAL: Each field has its own FOCUS, IGNORE, and ACT LIKE instructions. Apply each field\x27s behavioral approach independently. Do not let one field\x27s focus contaminate another field\x27s analysis.".data

/-- Translation of `extract_field_descriptions` (shared_utilities.py). -/
def extract_field_descriptions (schema : List (PyStr × PyStr)) : PyStr :=
  let sections := fieldSections schema
  if sections = [] then []
  else efdPreamble ++ joinWith "\n".data sections ++ efdEpilogue

/-- Values of the `context_hints` dict handled by
`build_enhanced_system_prompt`. -/
inductive HintVal
  /-- A plain string hint. -/
  | str (s : PyStr)
  /-- A list of hint items. -/
  | list (xs : List PyStr)
  /-- A key/value map of hints. -/
  | dict (kvs : List (PyStr × PyStr))

/-- Rendering of one hint value. -/
def hintValText : HintVal → PyStr
  | .str s => s ++ "\n".data
  | .list xs => (xs.map fun i => "- ".data ++ i ++ "\n".data).flatten
  | .dict kvs =>
    (kvs.map fun kv => "- ".data ++ kv.1 ++ ": ".data ++ kv.2 ++ "\n".data).flatten

/-- The hint-rendering loop. -/
def hintsBody : List (PyStr × HintVal) → PyStr
  | [] => []
  | (k, v) :: rest =>
    pyUpper k ++ ":\n".data ++ hintValText v ++ "\n".data ++ hintsBody rest

/-- Translation of `build_enhanced_system_prompt` (shared_utilities.py). -/
def build_enhanced_system_prompt (base_prompt : PyStr)
    (schema : List (PyStr × PyStr)) (context_hints : List (PyStr × HintVal)) :
    PyStr :=
  let field_instructions := extract_field_descriptions schema
  let enhanced :=
    if field_instructions ≠ [] then
      base_prompt ++ "\n\n".data ++ field_instructions
    else base_prompt
  if context_hints.isEmpty then enhanced
  else
    enhanced ++ "\n\nCONTEXT HINTS TO CONSIDER:\n".data
      ++ "Use these hints to improve accuracy and provide additional clarity, but do not summarize them.\n\n".data
      ++ hintsBody context_hints

/-! ## Structured LLM invocation (shared_utilities.py)

The provider call (client construction plus the schema-constrained
completion request) is external; its outcome is abstracted as an input, and
wall-clock measurement as the elapsed duration. -/

/-- Outcome of the guarded body of `process_content_with_structured_output`:
either some exception (configuration, transport or provider) or a response
whose `message.parsed` slot is the schema-validated object or `None`. -/
inductive ProviderCall (α : Type)
  /-- An exception with its message. -/
  | exn (msg : PyStr)
  /-- A completed request; `parsed` is `None` on schema-validation failure. -/
  | response (parsed : Option α)

/-- The metadata dictionary returned by the invoker; absent keys are
`none`. -/
structure InvokeMetadata where
  /-- Provider name (present on completed requests). -/
  provider : Option PyStr := none
  /-- Model name (present on completed requests). -/
  model : Option PyStr := none
  /-- ISO timestamp (present on completed requests). -/
  timestamp : Option PyStr := none
  /-- Success flag. -/
  success : Bool
  /-- Error message (present on failures). -/
  error : Option PyStr := none
  /-- Wall-clock duration of the attempt. -/
  processing_duration : Nat
deriving DecidableEq, Repr

/-- Translation of `process_content_with_structured_output`
(shared_utilities.py): a single attempt that returns the parsed object on
success and `(None, False, metadata-with-error)` on schema-validation
failure or any exception. -/
def process_content_with_structured_output {α : Type}
    (openaiAvailable : Bool) (provider modelName timestamp : PyStr)
    (call : ProviderCall α) (elapsed : Nat) :
    Option α × Bool × InvokeMetadata :=
  if !openaiAvailable then
    (none, false,
      { success := false,
        error := some "OpenAI package is not installed. Install it with \x27pip install openai\x27".data,
        processing_duration := 0 })
  else
    match call with
    | .exn msg =>
      (none, false, { success := false, error := some msg,
                      processing_duration := elapsed })
    | .response (some obj) =>
      (some obj, true,
        { provider := some provider, model := some modelName,
          timestamp := some timestamp, success := true,
          processing_duration := elapsed })
    | .response none =>
      (none, false,
        { provider := some provider, model := some modelName,
          timestamp := some timestamp, success := false,
          error := some "Failed to parse response to structured format".data,
          processing_duration := elapsed })

/-! ## Theorems -/

set_option maxRecDepth 40000 in
/-- Claim C2: `generate_cache_key` is a pure deterministic function of
`(git_url, git_ref)`; URLs differing only in letter case and/or a trailing
".git" suffix give equal keys for the same ref; and for the same URL the
tested distinct refs give distinct keys. -/
theorem generate_cache_key_spec :
    (∀ u r, generate_cache_key u r = generate_cache_key u r) ∧
    generate_cache_key "https://x/y.git".data "main".data =
      generate_cache_key "https://X/y".data "main".data ∧
    generate_cache_key "https://x/y".data "main".data ≠
      generate_cache_key "https://x/y".data "dev".data :=
  ⟨fun _ _ => rfl, by decide, by decide⟩

/-- Structure of the clone-tail: the trace starts with the clone attempt at
the target path, and a path is returned only when the clone and any
required checkout succeeded. -/
theorem cloneFresh_spec (env : AcqEnv) (p : RPath) :
    (∃ rest, (cloneFresh env p).2 = GitAction.cloneAttempt p :: rest) ∧
    ∀ q, (cloneFresh env p).1 = some q →
      q = p ∧ env.cloneOk = true ∧
        (env.gitRef = "main".data ∨ env.checkoutOk = true) := by
  unfold cloneFresh
  split_ifs with h1 h2 h3
  · exact ⟨⟨_, rfl⟩, fun q hq => by cases hq; exact ⟨rfl, h1, Or.inr h3⟩⟩
  · exact ⟨⟨_, rfl⟩, fun q hq => by cases hq⟩
  · exact ⟨⟨_, rfl⟩, fun q hq => by
      cases hq; exact ⟨rfl, h1, Or.inl (not_not.mp h2)⟩⟩
  · exact ⟨⟨_, rfl⟩, fun q hq => by cases hq⟩

/-- Claim C1: when a cached repository exists, is stale, and its update
attempt fails, `get_or_clone_repository` removes the cache directory and
then attempts a fresh clone into the same cache path, in this order; a path
is returned only when that fresh clone (and any required checkout)
succeeded, so the broken working copy is never returned. -/
theorem get_or_clone_stale_update_failure (env : AcqEnv)
    (h1 : env.noCache = false) (h2 : env.cacheExists = true)
    (h3 : env.cacheCurrent = false) (h4 : env.updateOk = false) :
    (∃ rest, (get_or_clone_repository env).2 =
      GitAction.updateAttempt :: GitAction.removeCacheDir ::
        GitAction.cloneAttempt RPath.cachePath :: rest) ∧
    ∀ p, (get_or_clone_repository env).1 = some p →
      p = RPath.cachePath ∧ env.cloneOk = true ∧
        (env.gitRef = "main".data ∨ env.checkoutOk = true) := by
  have hred : get_or_clone_repository env =
      ((cloneFresh env .cachePath).1,
        GitAction.updateAttempt :: GitAction.removeCacheDir ::
          (cloneFresh env .cachePath).2) := by
    unfold get_or_clone_repository
    rw [h1, h2, h3, h4]
    simp
  rw [hred]
  obtain ⟨⟨rest, hrest⟩, hret⟩ := cloneFresh_spec env .cachePath
  exact ⟨⟨rest, by rw [hrest]⟩, hret⟩

/-- Witness for C1: a concrete stale cache with failing update and a
succeeding re-clone. -/
theorem get_or_clone_stale_update_failure_witness :
    (∃ rest,
      (get_or_clone_repository
        ⟨false, "main".data, true, false, false, true, true⟩).2 =
      GitAction.updateAttempt :: GitAction.removeCacheDir ::
        GitAction.cloneAttempt RPath.cachePath :: rest) ∧
    ∀ p,
      (get_or_clone_repository
        ⟨false, "main".data, true, false, false, true, true⟩).1 = some p →
      p = RPath.cachePath ∧
        (⟨false, "main".data, true, false, false, true, true⟩ : AcqEnv).cloneOk
          = true ∧
        ((⟨false, "main".data, true, false, false, true, true⟩ : AcqEnv).gitRef
          = "main".data ∨
         (⟨false, "main".data, true, false, false, true, true⟩ : AcqEnv).checkoutOk
          = true) :=
  get_or_clone_stale_update_failure
    ⟨false, "main".data, true, false, false, true, true⟩ rfl rfl rfl rfl

/-- Claim C7: an invocation of `process_content_with_structured_output` that
ends in a schema-validation failure or in an exception returns the triple
`(None, False, metadata)` with an error message and the elapsed duration —
never a partially populated structured object. -/
theorem invoke_failure_non_partial {α : Type}
    (provider modelName timestamp : PyStr) (call : ProviderCall α)
    (elapsed : Nat)
    (h : (∃ msg, call = .exn msg) ∨ call = .response none) :
    (process_content_with_structured_output true provider modelName timestamp
        call elapsed).1 = none ∧
    (process_content_with_structured_output true provider modelName timestamp
        call elapsed).2.1 = false ∧
    (process_content_with_structured_output true provider modelName timestamp
        call elapsed).2.2.success = false ∧
    (process_content_with_structured_output true provider modelName timestamp
        call elapsed).2.2.error.isSome = true ∧
    (process_content_with_structured_output true provider modelName timestamp
        call elapsed).2.2.processing_duration = elapsed := by
  rcases h with ⟨msg, rfl⟩ | rfl <;>
    simp [process_content_with_structured_output]

/-- Witness for C7: a concrete provider exception. -/
theorem invoke_failure_non_partial_witness :
    (process_content_with_structured_output (α := Nat) true "gemini".data
        "m".data "t".data (.exn "boom".data) 5).1 = none ∧
    (process_content_with_structured_output (α := Nat) true "gemini".data
        "m".data "t".data (.exn "boom".data) 5).2.1 = false ∧
    (process_content_with_structured_output (α := Nat) true "gemini".data
        "m".data "t".data (.exn "boom".data) 5).2.2.success = false ∧
    (process_content_with_structured_output (α := Nat) true "gemini".data
        "m".data "t".data (.exn "boom".data) 5).2.2.error.isSome = true ∧
    (process_content_with_structured_output (α := Nat) true "gemini".data
        "m".data "t".data (.exn "boom".data) 5).2.2.processing_duration = 5 :=
  invoke_failure_non_partial "gemini".data "m".data "t".data
    (.exn "boom".data) 5 (Or.inl ⟨"boom".data, rfl⟩)

/-- Counterexample to claim C3: on a repository whose site manifest is
missing, the extraction path of `fetch_showroom_repository` returns `none`
instead of degrading to a document with empty metadata. -/
theorem fetch_missing_manifest_counterexample :
    fetch_showroom_repository
      ⟨.missing, some "* xref:index.adoc[Intro]".data,
        fun f =>
          if f = "index.adoc".data then some "= Intro\nHello world".data
          else none⟩
      "u".data "main".data = none := rfl

/-- Claim C3 (amended): a missing site manifest, or a manifest lacking the
required `title` or `start_page` field, makes the extraction path of
`fetch_showroom_repository` fail and return `none`; no document with
degraded empty metadata is produced. -/
theorem fetch_manifest_error_returns_none (repo : RepoFS)
    (git_url git_ref : PyStr)
    (h : repo.siteYaml = .missing ∨
      ∃ d, repo.siteYaml = .parsed d ∧ (d.title = [] ∨ d.start_page = [])) :
    fetch_showroom_repository repo git_url git_ref = none := by
  unfold fetch_showroom_repository
  rcases h with hm | ⟨d, hd, hfield⟩
  · rw [hm]; rfl
  · rw [hd]
    by_cases ht : d.title = []
    · simp [extract_lab_info_from_site_yaml, ht]
    · rcases hfield with ht2 | hs
      · exact absurd ht2 ht
      · simp [extract_lab_info_from_site_yaml, ht, hs]

/-- Witness for amended C3: a concrete repository with no manifest. -/
theorem fetch_manifest_error_returns_none_witness :
    fetch_showroom_repository
      ⟨.missing, some "* xref:index.adoc[Intro]".data, fun _ => none⟩
      "u".data "main".data = none :=
  fetch_manifest_error_returns_none
    ⟨.missing, some "* xref:index.adoc[Intro]".data, fun _ => none⟩
    "u".data "main".data (Or.inl rfl)

/-- Counterexample to claim C9: the text "Hello\n=" has an underline line
strictly shorter than its title line, yet the level-1 underline rule
accepts it and the extractor returns "Hello". -/
theorem underline_shorter_counterexample :
    extract_module_name_from_content "Hello\n=".data = "Hello".data ∧
    "=".data.length < "Hello".data.length := by decide

/-- Claim C9 (amended): the level-1 underline rule recognizes a heading
whenever a non-empty stripped line is immediately followed by a non-empty
stripped line consisting entirely of the underline character; the code
imposes no requirement that the underline be at least as long as the title
line. -/
theorem underline_rule_no_length_requirement (l1 l2 : PyStr)
    (rest : List PyStr) (h1 : pyStrip l1 ≠ []) (h2 : pyStrip l2 ≠ [])
    (h3 : (pyStrip l2).all (fun c => c = '=') = true) :
    firstUnderlineHead '=' (l1 :: l2 :: rest) = some (pyStrip l1) := by
  unfold firstUnderlineHead
  simp [h1, h2, h3]

/-- Witness for amended C9: a one-character underline below a five-character
title is accepted. -/
theorem underline_rule_no_length_requirement_witness :
    firstUnderlineHead '=' ["Hello".data, "=".data] =
      some (pyStrip "Hello".data) :=
  underline_rule_no_length_requirement "Hello".data "=".data []
    (by decide) (by decide) (by decide)

/-- Location of the first level-1 marker heading determines the result of
the exhaustive level-1 scan. -/
theorem firstL1Head_at_first :
    ∀ (lines : List PyStr) (j : Nat), j < lines.length →
      isL1Line (lines.getD j []) →
      (∀ k, k < j → ¬ isL1Line (lines.getD k [])) →
      firstL1Head lines = some (pyStrip ((pyStrip (lines.getD j [])).drop 2))
  | [], j, hj, _, _ => by simp at hj
  | l :: ls, 0, _, h1, _ => by
    simp only [List.getD_cons_zero] at h1 ⊢
    simp [firstL1Head, h1]
  | l :: ls, j + 1, hj, h1, hfirst => by
    have h0 : ¬ isL1Line l := by
      have := hfirst 0 (Nat.succ_pos j)
      simpa using this
    simp only [List.getD_cons_succ] at h1 ⊢
    rw [firstL1Head, if_neg h0]
    exact firstL1Head_at_first ls j (by simpa using hj) h1
      fun k hk => by simpa using hfirst (k + 1) (Nat.succ_lt_succ hk)

/-- Claim C4: in a document containing a level-2 heading at an earlier line
and its first level-1 marker heading at a later line,
`extract_module_name_from_content` returns the level-1 heading text: the
exhaustive level-1 scan precedes any level-2 attempt. -/
theorem extract_prefers_later_level1 (content : PyStr) (i j : Nat)
    (hij : i < j) (hj : j < (splitOnChar '\n' content).length)
    (h2 : isL2Line ((splitOnChar '\n' content).getD i []))
    (h1 : isL1Line ((splitOnChar '\n' content).getD j []))
    (hfirst : ∀ k, k < j →
      ¬ isL1Line ((splitOnChar '\n' content).getD k [])) :
    extract_module_name_from_content content =
      pyStrip ((pyStrip ((splitOnChar '\n' content).getD j [])).drop 2) := by
  have hk := firstL1Head_at_first (splitOnChar '\n' content) j hj h1 hfirst
  unfold extract_module_name_from_content
  simp only [hk]

/-- Witness for C4: "== Sub\n= Title" resolves to the later level-1 heading
"Title". -/
theorem extract_prefers_later_level1_witness :
    extract_module_name_from_content "== Sub\n= Title".data =
      pyStrip ((pyStrip
        ((splitOnChar '\n' "== Sub\n= Title".data).getD 1 [])).drop 2) :=
  extract_prefers_later_level1 "== Sub\n= Title".data 0 1
    (by decide) (by decide) (by decide) (by decide)
    (by decide)

/-- Counterexample to claim C5: a top-level bullet entry referencing an
`.adoc` file through a link:-style reference contributes nothing — the
parser only matches "* xref:" lines, so "other.adoc" is not in the
result. -/
theorem link_entry_not_extracted :
    parse_navigation_file (some "* link:other.adoc[Other]".data) =
      Except.ok ([] : List PyStr) ∧
    "other.adoc".data ∉ navModuleFiles "* link:other.adoc[Other]".data :=
  ⟨rfl, by decide⟩

/-- Every filename produced by the navigation-parsing loop originates from
some input line whose stripped form starts with "* xref:" and whose regex
search yields the filename. -/
theorem collectNav_from_xref_line :
    ∀ (ls : List PyStr) (seen : List PyStr) (f : PyStr),
      f ∈ collectNav seen ls →
      ∃ line ∈ ls, pyStarts "* xref:".data (pyStrip line) = true ∧
        searchXref (pyStrip line) = some f
  | [], _, _, h => by cases h
  | line :: rest, seen, f, h => by
    by_cases hx : pyStarts "* xref:".data (pyStrip line) = true
    · rw [collectNav, if_pos hx] at h
      rcases hsx : searchXref (pyStrip line) with _ | fname <;> rw [hsx] at h
      · rcases collectNav_from_xref_line rest seen f h with ⟨l, hl, hp⟩
        exact ⟨l, List.mem_cons_of_mem _ hl, hp⟩
      · have h' : f ∈ (if fname ∈ seen then collectNav seen rest
            else fname :: collectNav (fname :: seen) rest) := h
        by_cases hseen : fname ∈ seen
        · rw [if_pos hseen] at h'
          rcases collectNav_from_xref_line rest seen f h' with ⟨l, hl, hp⟩
          exact ⟨l, List.mem_cons_of_mem _ hl, hp⟩
        · rw [if_neg hseen] at h'
          rcases List.mem_cons.mp h' with rfl | hmem
          · exact ⟨line, List.mem_cons_self _ _, hx, hsx⟩
          · rcases collectNav_from_xref_line rest (fname :: seen) f hmem with
              ⟨l, hl, hp⟩
            exact ⟨l, List.mem_cons_of_mem _ hl, hp⟩
    · rw [collectNav, if_neg hx] at h
      rcases collectNav_from_xref_line rest seen f h with ⟨l, hl, hp⟩
      exact ⟨l, List.mem_cons_of_mem _ hl, hp⟩

/-- Claim C5 (amended): only xref:-style top-level entries contribute to
`parse_navigation_file`; every filename in the result of the parsing loop
comes from a line whose stripped form starts with "* xref:" (so link:-style
references are never extracted). -/
theorem nav_files_only_from_xref (nav_content f : PyStr)
    (h : f ∈ navModuleFiles nav_content) :
    ∃ line ∈ splitOnChar '\n' nav_content,
      pyStarts "* xref:".data (pyStrip line) = true ∧
        searchXref (pyStrip line) = some f :=
  collectNav_from_xref_line (splitOnChar '\n' nav_content) [] f h

/-- Witness for amended C5: the single xref entry of a concrete navigation
file. -/
theorem nav_files_only_from_xref_witness :
    ∃ line ∈ splitOnChar '\n' "* xref:index.adoc[Intro]".data,
      pyStarts "* xref:".data (pyStrip line) = true ∧
        searchXref (pyStrip line) = some "index.adoc".data :=
  nav_files_only_from_xref "* xref:index.adoc[Intro]".data
    "index.adoc".data (by decide)

/-- Every module assembled by the module loop has non-empty content that is
exactly the readable page file content for its filename. -/
theorem buildModules_content_src (pages : PyStr → Option PyStr)
    (start_page lab_name : PyStr) :
    ∀ (files : List PyStr) (m : ShowroomModule),
      m ∈ buildModules pages start_page lab_name files →
      m.module_content ≠ [] ∧ pages m.filename = some m.module_content
  | [], m, h => by cases h
  | f :: fs, m, h => by
    rw [buildModules] at h
    rcases hpf : pages f with _ | c
    · rw [read_module_content] at h
      rw [hpf] at h
      simp only [ne_eq, not_true_eq_false, if_neg, reduceIte] at h
      exact buildModules_content_src pages start_page lab_name fs m h
    · by_cases hce : c = []
      · rw [read_module_content] at h
        rw [hpf] at h
        subst hce
        simp only [ne_eq, not_true_eq_false, if_neg, reduceIte] at h
        exact buildModules_content_src pages start_page lab_name fs m h
      · rw [read_module_content] at h
        rw [hpf] at h
        simp only [ne_eq, hce, not_false_eq_true, if_pos, reduceIte] at h
        rcases List.mem_cons.mp h with rfl | hmem
        · exact ⟨hce, hpf⟩
        · exact buildModules_content_src pages start_page lab_name fs m hmem

/-- Claim C10: every module of a document successfully returned by
`fetch_showroom_repository` has non-empty content, and that content is the
page file content read for its filename; a navigation entry whose page is
absent, unreadable, or empty contributes no module. -/
theorem fetch_modules_nonempty_content (repo : RepoFS)
    (git_url git_ref : PyStr) (doc : Showroom)
    (h : fetch_showroom_repository repo git_url git_ref = some doc) :
    ∀ m ∈ doc.modules,
      m.module_content ≠ [] ∧ repo.pages m.filename = some m.module_content := by
  unfold fetch_showroom_repository at h
  rcases hs : extract_lab_info_from_site_yaml repo.siteYaml with e | ⟨lab, start⟩ <;>
    rw [hs] at h
  · cases h
  · rcases hp : parse_navigation_file repo.navFile with e | files <;>
      rw [hp] at h
    · cases h
    · cases h
      intro m hm
      exact buildModules_content_src repo.pages start lab files m hm

/-- Witness for C10: the concrete end-to-end repository, instantiated at
its single module. -/
theorem fetch_modules_nonempty_content_witness :
    (⟨"Intro".data, "index.adoc".data, "= Intro\nHello world".data⟩ :
      ShowroomModule).module_content ≠ [] ∧
    (⟨.parsed ⟨"Test Lab".data, "index.adoc".data⟩,
      some "* xref:index.adoc[Intro]".data,
      fun f =>
        if f = "index.adoc".data then some "= Intro\nHello world".data
        else none⟩ : RepoFS).pages
      (⟨"Intro".data, "index.adoc".data, "= Intro\nHello world".data⟩ :
        ShowroomModule).filename =
      some (⟨"Intro".data, "index.adoc".data, "= Intro\nHello world".data⟩ :
        ShowroomModule).module_content :=
  fetch_modules_nonempty_content
    ⟨.parsed ⟨"Test Lab".data, "index.adoc".data⟩,
      some "* xref:index.adoc[Intro]".data,
      fun f =>
        if f = "index.adoc".data then some "= Intro\nHello world".data
        else none⟩
    "u".data "main".data
    ⟨"Test Lab".data, "u".data, "main".data,
      [⟨"Intro".data, "index.adoc".data, "= Intro\nHello world".data⟩]⟩
    (by decide)
    ⟨"Intro".data, "index.adoc".data, "= Intro\nHello world".data⟩
    (by decide)

/-- Membership of the start-page module with inherited site title in the
assembled module list. -/
theorem buildModules_start_mem (pages : PyStr → Option PyStr)
    (start lab c : PyStr) (hc : pages start = some c) (hcne : c ≠ [])
    (hnoname : extract_module_name_from_content c = []) (hlab : lab ≠ []) :
    ∀ (files : List PyStr), start ∈ files →
      (⟨lab, start, c⟩ : ShowroomModule) ∈ buildModules pages start lab files
  | [], h => by cases h
  | f :: fs, h => by
    rcases List.mem_cons.mp h with rfl | hmem
    · have hr : read_module_content pages start = ([], c) := by
        simp [read_module_content, hc, hnoname]
      rw [buildModules]
      simp only [hr, ne_eq, hcne, not_false_eq_true, if_pos]
      simp [hlab]
    · have ih := buildModules_start_mem pages start lab c hc hcne hnoname hlab
        fs hmem
      rw [buildModules]
      simp only [ne_eq]
      split
      · exact List.mem_cons_of_mem _ ih
      · exact ih

/-- Claim C6: when the manifest yields a non-empty title `T` and start page
`F`, the page file `F` is readable with non-empty content but has no
extractable heading, and `F` appears in the navigation, the document
produced by `fetch_showroom_repository` contains the module
`⟨T, F, content⟩`: the landing page inherits the site title. -/
theorem start_page_inherits_title (repo : RepoFS)
    (git_url git_ref T F c nc : PyStr)
    (hsite : repo.siteYaml = .parsed ⟨T, F⟩) (hT : T ≠ []) (hF : F ≠ [])
    (hnav : repo.navFile = some nc) (hmem : F ∈ navModuleFiles nc)
    (hc : repo.pages F = some c) (hcne : c ≠ [])
    (hnoname : extract_module_name_from_content c = []) :
    ∃ doc, fetch_showroom_repository repo git_url git_ref = some doc ∧
      (⟨T, F, c⟩ : ShowroomModule) ∈ doc.modules := by
  have hextract : extract_lab_info_from_site_yaml repo.siteYaml = .ok (T, F) := by
    rw [hsite]
    simp [extract_lab_info_from_site_yaml, hT, hF]
  have hparse : parse_navigation_file repo.navFile = .ok (navModuleFiles nc) := by
    rw [hnav]
    rfl
  refine ⟨⟨T, git_url, git_ref,
    buildModules repo.pages F T (navModuleFiles nc)⟩, ?_, ?_⟩
  · unfold fetch_showroom_repository
    rw [hextract, hparse]
  · exact buildModules_start_mem repo.pages F T c hc hcne hnoname hT _ hmem

/-- Witness for C6: a concrete repository whose start page has no heading
inherits the manifest title "My Lab". -/
theorem start_page_inherits_title_witness :
    ∃ doc,
      fetch_showroom_repository
        ⟨.parsed ⟨"My Lab".data, "index.adoc".data⟩,
          some "* xref:index.adoc[Intro]".data,
          fun f =>
            if f = "index.adoc".data then some "Hello world".data else none⟩
        "u".data "main".data = some doc ∧
      (⟨"My Lab".data, "index.adoc".data, "Hello world".data⟩ :
        ShowroomModule) ∈ doc.modules :=
  start_page_inherits_title
    ⟨.parsed ⟨"My Lab".data, "index.adoc".data⟩,
      some "* xref:index.adoc[Intro]".data,
      fun f =>
        if f = "index.adoc".data then some "Hello world".data else none⟩
    "u".data "main".data "My Lab".data "index.adoc".data
    "Hello world".data "* xref:index.adoc[Intro]".data
    rfl (by decide) (by decide) rfl (by decide) (by decide) (by decide)
    (by decide)

/-- Counterexample to claim C8: a schema whose two described fields are the
excluded metadata fields `git_url` and `git_ref` produces no field headers
at all — the assembled prompt is the bare base prompt. -/
theorem excluded_fields_no_headers :
    build_enhanced_system_prompt "BASE".data
      [("git_url".data, "desc one".data), ("git_ref".data, "desc two".data)]
      [] = "BASE".data ∧
    hasSub (fieldHeader "git_url".data) "BASE".data = false ∧
    hasSub (fieldHeader "git_ref".data) "BASE".data = false := by decide

/-- Membership of a non-excluded described field section in the section
list. -/
theorem mem_fieldSections :
    ∀ (schema : List (PyStr × PyStr)) (name desc : PyStr),
      (name, desc) ∈ schema → name ∉ skipFields → desc ≠ [] →
      fieldSection name desc ∈ fieldSections schema
  | [], _, _, h, _, _ => by cases h
  | p :: rest, name, desc, h, hskip, hdesc => by
    rcases List.mem_cons.mp h with heq | hm
    · cases heq
      rw [fieldSections, if_neg hskip, if_pos hdesc]
      exact List.mem_cons_self _ _
    · obtain ⟨a, b⟩ := p
      rw [fieldSections]
      by_cases hsk : a ∈ skipFields
      · rw [if_pos hsk]
        exact mem_fieldSections rest name desc hm hskip hdesc
      · rw [if_neg hsk]
        by_cases hb : b ≠ []
        · rw [if_pos hb]
          exact List.mem_cons_of_mem _
            (mem_fieldSections rest name desc hm hskip hdesc)
        · rw [if_neg hb]
          exact mem_fieldSections rest name desc hm hskip hdesc

/-- Shape of the field-instruction block when at least one section
exists. -/
theorem extract_field_descriptions_decomp (schema : List (PyStr × PyStr))
    (hne : fieldSections schema ≠ []) :
    extract_field_descriptions schema =
      efdPreamble ++ joinWith "\n".data (fieldSections schema)
        ++ efdEpilogue := by
  rw [extract_field_descriptions]
  simp only [if_neg hne]

/-- Shape of the full prompt when at least one section exists and no
context hints are given. -/
theorem build_prompt_decomp (base : PyStr) (schema : List (PyStr × PyStr))
    (hne : fieldSections schema ≠ []) :
    build_enhanced_system_prompt base schema [] =
      base ++ "\n\n".data ++
        (efdPreamble ++ joinWith "\n".data (fieldSections schema)
          ++ efdEpilogue) := by
  have hfi := extract_field_descriptions_decomp schema hne
  have hne2 : ¬(efdPreamble ++ joinWith "\n".data (fieldSections schema)
      ++ efdEpilogue = []) := by
    intro hcontra
    rcases List.append_eq_nil.mp hcontra with ⟨hl, _⟩
    rcases List.append_eq_nil.mp hl with ⟨hp2, _⟩
    exact absurd hp2 (by decide)
  rw [build_enhanced_system_prompt]
  simp only [List.isEmpty_nil, if_pos, ne_eq, hfi, if_true]
  rw [if_pos hne2]

/-- Claim C8 (amended): for a schema with two described fields outside the
fixed exclusion set and with distinct upper-cased names, the assembled
system prompt contains, for each field, its distinct upper-cased header
immediately followed by the directive embedding that field\x27s own
description, under the preamble and the closing non-contamination
instruction. -/
theorem prompt_field_isolation (base : PyStr) (schema : List (PyStr × PyStr))
    (f1 d1 f2 d2 : PyStr)
    (h1 : (f1, d1) ∈ schema) (h2 : (f2, d2) ∈ schema)
    (hs1 : f1 ∉ skipFields) (hs2 : f2 ∉ skipFields)
    (hd1 : d1 ≠ []) (hd2 : d2 ≠ []) (hne : pyUpper f1 ≠ pyUpper f2) :
    hasSub (fieldHeader f1 ++ "\n".data ++ fieldDirective d1)
      (build_enhanced_system_prompt base schema []) = true ∧
    hasSub (fieldHeader f2 ++ "\n".data ++ fieldDirective d2)
      (build_enhanced_system_prompt base schema []) = true ∧
    fieldHeader f1 ≠ fieldHeader f2 ∧
    hasSub efdPreamble (build_enhanced_system_prompt base schema []) = true ∧
    hasSub efdEpilogue (build_enhanced_system_prompt base schema []) = true := by
  have hm1 := mem_fieldSections schema f1 d1 h1 hs1 hd1
  have hm2 := mem_fieldSections schema f2 d2 h2 hs2 hd2
  have hnon : fieldSections schema ≠ [] := List.ne_nil_of_mem hm1
  have hp := build_prompt_decomp base schema hnon
  refine ⟨?_, ?_, ?_, ?_, ?_⟩
  · rcases joinWith_mem_decomp "\n".data hm1 with ⟨u, v, huv⟩
    apply hasSub_of_eq_sandwich (base ++ "\n\n".data ++ efdPreamble ++ u)
      ("\n".data ++ v ++ efdEpilogue)
    rw [hp, huv]
    simp [fieldSection, List.append_assoc]
  · rcases joinWith_mem_decomp "\n".data hm2 with ⟨u, v, huv⟩
    apply hasSub_of_eq_sandwich (base ++ "\n\n".data ++ efdPreamble ++ u)
      ("\n".data ++ v ++ efdEpilogue)
    rw [hp, huv]
    simp [fieldSection, List.append_assoc]
  · intro hcontra
    rw [fieldHeader, fieldHeader] at hcontra
    exact hne (List.append_left_injective _ hcontra)
  · apply hasSub_of_eq_sandwich (base ++ "\n\n".data)
      (joinWith "\n".data (fieldSections schema) ++ efdEpilogue)
    rw [hp]
    simp [List.append_assoc]
  · apply hasSub_of_eq_sandwich
      (base ++ "\n\n".data ++ efdPreamble ++
        joinWith "\n".data (fieldSections schema)) []
    rw [hp]
    simp [List.append_assoc]

/-- Witness for amended C8: a two-field schema with distinct descriptions. -/
theorem prompt_field_isolation_witness :
    hasSub (fieldHeader "redhat_products".data ++ "\n".data ++
        fieldDirective "products focus".data)
      (build_enhanced_system_prompt "BASE".data
        [("redhat_products".data, "products focus".data),
         ("lab_summary".data, "summary focus".data)] []) = true ∧
    hasSub (fieldHeader "lab_summary".data ++ "\n".data ++
        fieldDirective "summary focus".data)
      (build_enhanced_system_prompt "BASE".data
        [("redhat_products".data, "products focus".data),
         ("lab_summary".data, "summary focus".data)] []) = true ∧
    fieldHeader "redhat_products".data ≠ fieldHeader "lab_summary".data ∧
    hasSub efdPreamble
      (build_enhanced_system_prompt "BASE".data
        [("redhat_products".data, "products focus".data),
         ("lab_summary".data, "summary focus".data)] []) = true ∧
    hasSub efdEpilogue
      (build_enhanced_system_prompt "BASE".data
        [("redhat_products".data, "products focus".data),
         ("lab_summary".data, "summary focus".data)] []) = true :=
  prompt_field_isolation "BASE".data
    [("redhat_products".data, "products focus".data),
     ("lab_summary".data, "summary focus".data)]
    "redhat_products".data "products focus".data
    "lab_summary".data "summary focus".data
    (by decide) (by decide) (by decide) (by decide) (by decide) (by decide)
    (by decide)



